import Mathlib

/-!
Shallow embedding of the temperature-extraction core of this repository
(`fetch_temperatures.py` and its duplicated copy in `app.py`).

Modelling conventions:
* A parsed JSON document (the output of `json.load`) is the mutual
  inductive `Json` / `Fields` / `Elems` below.  Python `None` is
  `Json.null` (JSON `null` parses to `None`, and `dict.get` of a missing
  key also returns `None`, so both are `Json.null` at value level;
  the membership test `k in obj` is modelled separately by `Fields.lookup`
  returning an `Option`).
* JSON numbers are modelled as integers (`Int`).  No claim under
  verification depends on float-specific parsing or printing of the
  *input document*, only on strings.
* Python truthiness (`or`, `if x:`) is the function `truthy`.
* `re.IGNORECASE` is modelled as ASCII case folding, which is exact for
  the ASCII letters occurring in the pattern `temp|temperature|t\b|溫度`.
* The regex word-character class behind `\b` is modelled for ASCII
  alphanumerics, underscore, and the CJK unified-ideograph block
  U+4E00..U+9FFF (the only non-ASCII characters this repository's data
  and pattern use); other codepoints are outside the modelled fragment.
* The `TypeError` that `re.search` raises when handed a non-string, and
  which propagates out of `find_locations`, is modelled by running the
  scan in `Except String`.
-/

namespace Lect13

mutual

inductive Json where
  | obj (fields : Fields)
  | arr (elems : Elems)
  | str (s : String)
  | num (n : Int)
  | bool (b : Bool)
  | null

inductive Fields where
  | nil
  | cons (key : String) (val : Json) (rest : Fields)

inductive Elems where
  | nil
  | cons (head : Json) (tail : Elems)

end

/-- Python dict membership / item access: first binding for a key.
Python dicts have unique keys, so first-match lookup is exact. -/
def Fields.lookup : Fields → String → Option Json
  | .nil, _ => none
  | .cons k v rest, key => if k = key then some v else Fields.lookup rest key

/-- `d.get(k)`: the value if present, Python `None` (= `Json.null`) otherwise. -/
def Fields.pyGet (fs : Fields) (key : String) : Json :=
  (fs.lookup key).getD .null

def Fields.isEmpty : Fields → Bool
  | .nil => true
  | .cons _ _ _ => false

def Elems.isEmpty : Elems → Bool
  | .nil => true
  | .cons _ _ => false

/-- Python truthiness of a parsed-JSON value. -/
def truthy : Json → Bool
  | .obj fs => !fs.isEmpty
  | .arr es => !es.isEmpty
  | .str s => s ≠ ""
  | .num n => n ≠ 0
  | .bool b => b
  | .null => false

/-- Python `x or y` on parsed-JSON values. -/
def pyOr (x y : Json) : Json := if truthy x then x else y

def Json.isStr : Json → Bool
  | .str _ => true
  | _ => false

def Json.isNull : Json → Bool
  | .null => true
  | _ => false

/-! ### The classifier `is_temp_name` (fetch_temperatures.py lines 18-20)

`re.search(r"temp|temperature|t\b|溫度", name, re.IGNORECASE)`: the search
tries every start position left to right and, at each position, the four
alternatives in order; a match anywhere makes the result true. -/

/-- ASCII lowering; exact model of `re.IGNORECASE` for the pattern's letters. -/
def lowerAscii (c : Char) : Char := c.toLower

/-- Regex word character (`\w`), on the modelled fragment: ASCII
alphanumerics, underscore, CJK unified ideographs. -/
def isWordChar (c : Char) : Bool :=
  c.isAlphanum || c = '_' || (0x4E00 ≤ c.toNat && c.toNat ≤ 0x9FFF)

/-- Case-insensitive "the pattern `pat` (already lowercase) starts here". -/
def startsWithCI : List Char → List Char → Bool
  | [], _ => true
  | _ :: _, [] => false
  | p :: ps, c :: cs => (lowerAscii c == p) && startsWithCI ps cs

/-- `\b` immediately after a matched character: end of string or a
non-word character next. -/
def boundaryAfter : List Char → Bool
  | [] => true
  | d :: _ => !isWordChar d

/-- The alternative `t\b` matches at this position. -/
def tBoundHere : List Char → Bool
  | [] => false
  | c :: rest => (lowerAscii c == 't') && boundaryAfter rest

/-- Some alternative of `temp|temperature|t\b|溫度` matches at this position. -/
def matchHere (cs : List Char) : Bool :=
  startsWithCI "temp".data cs || startsWithCI "temperature".data cs ||
    tBoundHere cs || startsWithCI "溫度".data cs

/-- `p` holds at some start position (every suffix, including the empty one). -/
def anySuffix (p : List Char → Bool) : List Char → Bool
  | [] => p []
  | c :: rest => p (c :: rest) || anySuffix p rest

/-- `is_temp_name` of fetch_temperatures.py: does the regex search succeed? -/
def is_temp_name (s : String) : Bool :=
  anySuffix matchHere s.data

/-! ### Python `str()` on parsed-JSON values

`scan` calls `str(val_container)` on a non-dict, non-None container;
that container can be a string, number, boolean or list.  `str` of a
container uses `repr` on the members.  We model `repr` of a string in
its common single-quote form, escaping backslashes and single quotes
(Python's quote-choice and control-character escapes are outside the
modelled fragment; no claim exercises them). -/

def backslashCh : Char := Char.ofNat 92

def squoteCh : Char := Char.ofNat 39

def reprEscape (c : Char) : List Char :=
  if c = backslashCh then [backslashCh, backslashCh]
  else if c = squoteCh then [backslashCh, squoteCh]
  else [c]

/-- `repr` of a Python string, single-quote form. -/
def reprOfStr (s : String) : String :=
  String.mk (squoteCh :: (s.data.map reprEscape).flatten ++ [squoteCh])

mutual

def pyRepr : Json → String
  | .str s => reprOfStr s
  | .num n => toString n
  | .bool b => if b then "True" else "False"
  | .null => "None"
  | .arr es => "[" ++ pyReprElems es ++ "]"
  | .obj fs => "\x7b" ++ pyReprFields fs ++ "\x7d"

def pyReprElems : Elems → String
  | .nil => ""
  | .cons v .nil => pyRepr v
  | .cons v rest => pyRepr v ++ ", " ++ pyReprElems rest

def pyReprFields : Fields → String
  | .nil => ""
  | .cons k v .nil => reprOfStr k ++ ": " ++ pyRepr v
  | .cons k v rest => reprOfStr k ++ ": " ++ pyRepr v ++ ", " ++ pyReprFields rest

end

def pyStr : Json → String
  | .str s => s
  | j => pyRepr j

/-! ### The scan (fetch_temperatures.py lines 23-73) -/

/-- The ordered candidate key spellings for a location name
(fetch_temperatures.py line 34). -/
def locKeys : List String :=
  ["locationName", "locationname", "location", "siteName", "stationName", "name"]

/-- The probe loop of lines 34-37: the first key present whose value is a
string breaks the loop; a key present with a non-string value is passed
over. -/
def probeLoc (fs : Fields) : List String → Option String
  | [] => none
  | k :: ks =>
    match fs.lookup k with
    | some (.str s) => some s
    | _ => probeLoc fs ks

/-- `loc_name` after the probe loop: the probe result, else the inherited
context. -/
def resolveLocName (fs : Fields) (inherited : Option String) : Option String :=
  match probeLoc fs locKeys with
  | some s => some s
  | none => inherited

/-- Python `if loc_name:` — `None` and the empty string are falsy. -/
def truthyLoc : Option String → Bool
  | some s => s ≠ ""
  | none => false

/-- `elem.get("elementName") or elem.get("name") or ""` (line 45). -/
def elemNameJson (efs : Fields) : Json :=
  pyOr (pyOr (efs.pyGet "elementName") (efs.pyGet "name")) (.str "")

/-- Lines 48-53: `temp_val`, with `Json.null` standing for Python `None`
(its initial value, kept when no branch assigns). -/
def tempValOf (efs : Fields) : Json :=
  let c := pyOr (efs.pyGet "elementValue") (efs.pyGet "value")
  match c with
  | .obj cfs => pyOr (cfs.pyGet "value") (cfs.pyGet "measure")
  | .null => .null
  | j => .str (pyStr j)

/-- One output record (the dict appended at lines 56-60). -/
structure Row where
  location : String
  temp_type : String
  temperature : Json

/-- The exception `re.search` raises when `elem_name` is a truthy
non-string (e.g. a number): nothing in `scan` catches it. -/
def typeErrorMsg : String := "TypeError: expected string or bytes-like object"

/-- Exception-propagating sequencing: run both, concatenate the record
lists, abort on the first uncaught exception. -/
def seqCat (x y : Except String (List Row)) : Except String (List Row) :=
  match x with
  | .error e => .error e
  | .ok a =>
    match y with
    | .error e => .error e
    | .ok b => .ok (a ++ b)

mutual

/-- Lines 41-60: the body of the `for elem in obj["weatherElement"]` loop
for one element.  A non-dict element is skipped (`continue`); a truthy
non-string element name reaches `re.search` and raises `TypeError`. -/
def processElem : Json → Option String → Except String (List Row)
  | .obj efs, loc =>
    match elemNameJson efs with
    | .str s =>
      if is_temp_name s then
        match loc, tempValOf efs with
        | some l, tv => if l ≠ "" && !tv.isNull then .ok [⟨l, s, tv⟩] else .ok []
        | none, _ => .ok []
      else .ok []
    | _ => .error typeErrorMsg
  | _, _ => .ok []

def processElems : Elems → Option String → Except String (List Row)
  | .nil, _ => .ok []
  | .cons e rest, loc => seqCat (processElem e loc) (processElems rest loc)

/-- `scan` of lines 30-69: resolve the location name, emit from a
`weatherElement` list if present, then recurse into children (all of an
object's values with the resolved name; an array's items with the
unchanged inherited name; scalars end the recursion). -/
def scanE : Json → Option String → Except String (List Row)
  | .obj fs, inherited =>
    let loc := resolveLocName fs inherited
    match fs.lookup "weatherElement" with
    | some (.arr es) => seqCat (processElems es loc) (scanFields fs loc)
    | _ => scanFields fs loc
  | .arr es, inherited => scanElems es inherited
  | _, _ => .ok []

def scanFields : Fields → Option String → Except String (List Row)
  | .nil, _ => .ok []
  | .cons _ v rest, loc => seqCat (scanE v loc) (scanFields rest loc)

def scanElems : Elems → Option String → Except String (List Row)
  | .nil, _ => .ok []
  | .cons v rest, inherited => seqCat (scanE v inherited) (scanElems rest inherited)

end

/-- `find_locations` (lines 23-73): run the scan from the root with no
inherited location name; an uncaught exception propagates to the caller. -/
def find_locationsE (data : Json) : Except String (List Row) :=
  scanE data none

/-! Converters for writing concrete documents compactly. -/

def Fields.ofList : List (String × Json) → Fields
  | [] => .nil
  | (k, v) :: rest => .cons k v (Fields.ofList rest)

def Elems.ofList : List Json → Elems
  | [] => .nil
  | v :: rest => .cons v (Elems.ofList rest)

def jobj (l : List (String × Json)) : Json := .obj (Fields.ofList l)

def jarr (l : List Json) : Json := .arr (Elems.ofList l)

/-! ### The duplicated copy in app.py (lines 31-63)

app.py carries its own `is_temp_name` and `find_locations`.  They are
embedded here independently, line by line from app.py, sharing only the
models of Python/`re` semantics (`pyOr`, `truthy`, `anySuffix`, ...),
so that the two copies can be compared. -/

namespace App

/-- app.py line 31-33: `re.search(r"temp|temperature|t\b|溫度", name,
re.IGNORECASE)`. -/
def is_temp_name (s : String) : Bool :=
  anySuffix matchHere s.data

/-- app.py line 43-45: the location-key probe loop. -/
def probeLoc (fs : Fields) : List String → Option String
  | [] => none
  | k :: ks =>
    match fs.lookup k with
    | some (.str s) => some s
    | _ => App.probeLoc fs ks

/-- app.py lines 42-45: `loc_name` after the probe. -/
def resolveLocName (fs : Fields) (inherited : Option String) : Option String :=
  match App.probeLoc fs ["locationName", "locationname", "location", "siteName",
      "stationName", "name"] with
  | some s => some s
  | none => inherited

/-- app.py line 49: `elem.get("elementName") or elem.get("name") or ""`. -/
def elemNameJson (efs : Fields) : Json :=
  pyOr (pyOr (efs.pyGet "elementName") (efs.pyGet "name")) (.str "")

/-- app.py lines 51-56: `temp_val`. -/
def tempValOf (efs : Fields) : Json :=
  let c := pyOr (efs.pyGet "elementValue") (efs.pyGet "value")
  match c with
  | .obj cfs => pyOr (cfs.pyGet "value") (cfs.pyGet "measure")
  | .null => .null
  | j => .str (pyStr j)

mutual

/-- app.py lines 47-58: one `weatherElement` member. -/
def processElem : Json → Option String → Except String (List Row)
  | .obj efs, loc =>
    match App.elemNameJson efs with
    | .str s =>
      if App.is_temp_name s then
        match loc, App.tempValOf efs with
        | some l, tv => if l ≠ "" && !tv.isNull then .ok [⟨l, s, tv⟩] else .ok []
        | none, _ => .ok []
      else .ok []
    | _ => .error typeErrorMsg
  | _, _ => .ok []

def processElems : Elems → Option String → Except String (List Row)
  | .nil, _ => .ok []
  | .cons e rest, loc => seqCat (App.processElem e loc) (App.processElems rest loc)

/-- app.py lines 40-61: `scan`. -/
def scanE : Json → Option String → Except String (List Row)
  | .obj fs, inherited =>
    let loc := App.resolveLocName fs inherited
    match fs.lookup "weatherElement" with
    | some (.arr es) => seqCat (App.processElems es loc) (App.scanFields fs loc)
    | _ => App.scanFields fs loc
  | .arr es, inherited => App.scanElems es inherited
  | _, _ => .ok []

def scanFields : Fields → Option String → Except String (List Row)
  | .nil, _ => .ok []
  | .cons _ v rest, loc => seqCat (App.scanE v loc) (App.scanFields rest loc)

def scanElems : Elems → Option String → Except String (List Row)
  | .nil, _ => .ok []
  | .cons v rest, inherited => seqCat (App.scanE v inherited) (App.scanElems rest inherited)

end

/-- app.py lines 35-63: `find_locations`. -/
def find_locationsE (data : Json) : Except String (List Row) :=
  App.scanE data none

end App

/-! ### Python `float()` and the SQLite sink (fetch_temperatures.py lines 86-115)

`float(x)` on a string accepts optional surrounding whitespace, an
optional sign, a decimal mantissa (digits, possibly with one dot, at
least one digit overall) and an optional exponent; the value is modelled
exactly as a rational.  (`inf`/`nan` literals and digit-group
underscores are outside the modelled fragment; no claim exercises
them.)  `float` of a number or boolean succeeds; of `None`, a list or a
dict it raises `TypeError` — and `write_sqlite` catches `ValueError`
and `TypeError` alike, so `pyFloat` returns `none` for every failure. -/

def isSpaceCh (c : Char) : Bool :=
  c = ' ' || c = Char.ofNat 9 || c = Char.ofNat 10 || c = Char.ofNat 13 ||
    c = Char.ofNat 11 || c = Char.ofNat 12

def digitsToNat (ds : List Char) : Nat :=
  ds.foldl (fun a c => a * 10 + (c.toNat - 48)) 0

/-- Parse the exponent suffix (already past `e`/`E`); returns the signed
exponent if the remaining input is exactly a signed digit run. -/
def parseExp (cs : List Char) : Option Int :=
  let (esign, cs1) : Int × List Char :=
    match cs with
    | '+' :: t => (1, t)
    | '-' :: t => (-1, t)
    | t => (1, t)
  let ds := cs1.takeWhile Char.isDigit
  let rest := cs1.dropWhile Char.isDigit
  if ds = [] ∨ rest ≠ [] then none else some (esign * digitsToNat ds)

/-- `float(s)` for a string, as an exact rational. -/
def parseFloatStr (s : String) : Option Rat :=
  let cs0 := s.data.dropWhile isSpaceCh
  let cs := (cs0.reverse.dropWhile isSpaceCh).reverse
  let (sign, cs1) : Rat × List Char :=
    match cs with
    | '+' :: t => (1, t)
    | '-' :: t => (-1, t)
    | t => (1, t)
  let intDs := cs1.takeWhile Char.isDigit
  let r2 := cs1.dropWhile Char.isDigit
  let (fracDs, r3) : List Char × List Char :=
    match r2 with
    | '.' :: t => (t.takeWhile Char.isDigit, t.dropWhile Char.isDigit)
    | t => ([], t)
  if intDs = [] ∧ fracDs = [] then none
  else
    let mant : Rat :=
      (digitsToNat intDs : Rat) + (digitsToNat fracDs : Rat) / ((10 : Rat) ^ fracDs.length)
    match r3 with
    | [] => some (sign * mant)
    | 'e' :: t =>
      match parseExp t with
      | some e => some (sign * mant * (10 : Rat) ^ e)
      | none => none
    | 'E' :: t =>
      match parseExp t with
      | some e => some (sign * mant * (10 : Rat) ^ e)
      | none => none
    | _ => none

/-- `float(temp)` under `except (ValueError, TypeError)`: `some` the value
on success, `none` when the conversion raises (and is caught). -/
def pyFloat : Json → Option Rat
  | .str s => parseFloatStr s
  | .num n => some (n : Rat)
  | .bool b => some (if b then 1 else 0)
  | _ => none

/-- The f-string printed to stderr at line 112. -/
def warnMsg (temp : Json) : String :=
  "Warning: Could not convert temperature " ++ String.singleton squoteCh ++
    pyStr temp ++ String.singleton squoteCh ++ " to float. Skipping."

/-- The per-row loop of lines 102-112, from the row list to (rows inserted
into the freshly cleared table, warnings printed), in encounter order. -/
def write_sqliteGo : List Row → List (String × String × Rat) × List String
  | [] => ([], [])
  | r :: rest =>
    let p := write_sqliteGo rest
    if r.location ≠ "" && r.temp_type ≠ "" && !r.temperature.isNull then
      match pyFloat r.temperature with
      | some q => ((r.location, r.temp_type, q) :: p.1, p.2)
      | none => (p.1, warnMsg r.temperature :: p.2)
    else p

/-- `write_sqlite` (lines 86-115): an empty batch returns before touching
the database; otherwise the table is cleared and each row is processed
independently.  The model's value is (final table contents, warnings). -/
def write_sqlite (rows : List Row) : List (String × String × Rat) × List String :=
  if rows.isEmpty then ([], []) else write_sqliteGo rows

/-! ### The condition of claim C7: no `weatherElement` array anywhere -/

mutual

/-- No object in the tree has a key `weatherElement` whose value is an
array (the condition under which the scan finds nothing). -/
def noWE : Json → Bool
  | .obj fs =>
    (match fs.lookup "weatherElement" with
     | some (.arr _) => false
     | _ => true) && noWEFields fs
  | .arr es => noWEElems es
  | _ => true

def noWEFields : Fields → Bool
  | .nil => true
  | .cons _ v rest => noWE v && noWEFields rest

def noWEElems : Elems → Bool
  | .nil => true
  | .cons v rest => noWE v && noWEElems rest

end

/-! ### Definitions taken from the specification's wording

These follow the words of spec.md / the claims, not the source; they
exist to be compared against the source-derived definitions above. -/

namespace Spec

/-- The spec-side "contains, case-insensitively" (pattern given lowercase). -/
def containsCI (pat : String) (s : String) : Bool :=
  anySuffix (startsWithCI pat.data) s.data

/-- Spec side of claim C3 as stated: a standalone, bounded token `t` —
an occurrence of `t`/`T` whose neighbours on BOTH sides are absent or
non-word characters. -/
def standaloneTAux (prev : Option Char) : List Char → Bool
  | [] => false
  | c :: rest =>
    ((lowerAscii c == 't') &&
      (match prev with
       | none => true
       | some p => !isWordChar p) &&
      boundaryAfter rest) ||
    standaloneTAux (some c) rest

def hasStandaloneT (s : String) : Bool :=
  standaloneTAux none s.data

/-- Claim C3 as stated: accepted exactly when the name contains `temp`,
`temperature` or `溫度` case-insensitively, or `t` as a standalone
bounded token. -/
def isTempNameOrig (s : String) : Bool :=
  containsCI "temp" s || containsCI "temperature" s || containsCI "溫度" s ||
    hasStandaloneT s

/-- A `t`/`T` occurrence bounded on the right only (followed by a
non-word character or the end of the name). -/
def hasRightBoundedT (s : String) : Bool :=
  anySuffix tBoundHere s.data

/-- Claim C3 amended: the token `t` only needs its right boundary. -/
def isTempNameAmended (s : String) : Bool :=
  containsCI "temp" s || containsCI "temperature" s || containsCI "溫度" s ||
    hasRightBoundedT s

/-- Spec side of claim C5: the first of the six candidate keys present
with a string value, written declaratively. -/
def firstLocString (fs : Fields) : Option String :=
  (locKeys.filterMap fun k =>
    match fs.lookup k with
    | some (.str s) => some s
    | _ => none).head?

/-- "First non-null wins", the selection rule claim C2 asserts. -/
def firstNonNull (x y : Json) : Json :=
  if x.isNull then y else x

/-- Claim C2 as stated: container = first non-null of `elementValue`,
`value`; object container = first non-null of its `value`, `measure`;
non-object container = its string representation; `null` = no value. -/
def origScalarOf (efs : Fields) : Json :=
  let c := firstNonNull (efs.pyGet "elementValue") (efs.pyGet "value")
  match c with
  | .obj cfs => firstNonNull (cfs.pyGet "value") (cfs.pyGet "measure")
  | .null => .null
  | j => .str (pyStr j)

/-- "First truthy wins", the rule claim C2 must be amended to. -/
def firstTruthy (x y : Json) : Json :=
  if truthy x then x else y

/-- Claim C2 amended: container = first truthy of `elementValue`,
`value`; an object container yields its `value` key if truthy and
otherwise its raw `measure` lookup; a non-object, non-null container
yields its string representation. -/
def amendedScalarOf (efs : Fields) : Json :=
  let c := firstTruthy (efs.pyGet "elementValue") (efs.pyGet "value")
  match c with
  | .obj cfs => firstTruthy (cfs.pyGet "value") (cfs.pyGet "measure")
  | .null => .null
  | j => .str (pyStr j)

/-- Spec side of claim C9: what the sink does with one row when the row
passes the non-empty/non-null gate and its value converts. -/
def rowInsert (r : Row) : Option (String × String × Rat) :=
  if r.location ≠ "" && r.temp_type ≠ "" && !r.temperature.isNull then
    (pyFloat r.temperature).map fun q => (r.location, r.temp_type, q)
  else none

/-- Spec side of claim C9: the warning a row produces when its value
fails to convert. -/
def rowWarn (r : Row) : Option String :=
  if r.location ≠ "" && r.temp_type ≠ "" && !r.temperature.isNull then
    match pyFloat r.temperature with
    | some _ => none
    | none => some (warnMsg r.temperature)
  else none

end Spec

/-! ### Helper lemmas -/

theorem anySuffix_congr (p q : List Char → Bool) (h : ∀ cs, p cs = q cs) :
    ∀ l, anySuffix p l = anySuffix q l
  | [] => h []
  | c :: rest => by rw [anySuffix, anySuffix, h, anySuffix_congr p q h rest]

theorem anySuffix_or (p q : List Char → Bool) :
    ∀ l, anySuffix (fun cs => p cs || q cs) l = (anySuffix p l || anySuffix q l)
  | [] => rfl
  | c :: rest => by
    simp only [anySuffix, anySuffix_or p q rest]
    cases p (c :: rest) <;> cases q (c :: rest) <;>
      cases anySuffix p rest <;> cases anySuffix q rest <;> rfl

theorem is_temp_name_ne_empty {s : String} (h : is_temp_name s = true) : s ≠ "" := by
  intro he
  subst he
  exact absurd h (by decide)

theorem probeLoc_eq (fs : Fields) : ∀ ks, probeLoc fs ks =
    (ks.filterMap fun k =>
      match fs.lookup k with
      | some (.str s) => some s
      | _ => none).head?
  | [] => rfl
  | k :: ks => by
    rw [probeLoc]
    cases h : fs.lookup k with
    | none => simp [List.filterMap_cons, h, probeLoc_eq fs ks]
    | some v => cases v <;> simp [List.filterMap_cons, h, probeLoc_eq fs ks]

theorem resolveLocName_idem (fs : Fields) (inh : Option String) :
    resolveLocName fs (resolveLocName fs inh) = resolveLocName fs inh := by
  unfold resolveLocName
  cases probeLoc fs locKeys <;> simp

mutual

theorem scanE_noWE : ∀ (j : Json) (l : Option String), noWE j = true → scanE j l = .ok []
  | .obj fs, l, h => by
    have h2 : noWEFields fs = true := by
      simp only [noWE, Bool.and_eq_true] at h
      exact h.2
    have h1 : (match fs.lookup "weatherElement" with
               | some (.arr _) => false
               | _ => true) = true := by
      simp only [noWE, Bool.and_eq_true] at h
      exact h.1
    simp only [scanE]
    split
    · rename_i es hw
      rw [hw] at h1
      simp at h1
    · exact scanFields_noWE fs _ h2
  | .arr es, l, h => by
    simp only [scanE]
    exact scanElems_noWE es l (by simpa [noWE] using h)
  | .str _, _, _ => rfl
  | .num _, _, _ => rfl
  | .bool _, _, _ => rfl
  | .null, _, _ => rfl

theorem scanFields_noWE : ∀ (fs : Fields) (l : Option String),
    noWEFields fs = true → scanFields fs l = .ok []
  | .nil, _, _ => rfl
  | .cons _ v rest, l, h => by
    simp only [noWEFields, Bool.and_eq_true] at h
    simp only [scanFields]
    rw [scanE_noWE v l h.1, scanFields_noWE rest l h.2]
    rfl

theorem scanElems_noWE : ∀ (es : Elems) (l : Option String),
    noWEElems es = true → scanElems es l = .ok []
  | .nil, _, _ => rfl
  | .cons v rest, l, h => by
    simp only [noWEElems, Bool.and_eq_true] at h
    simp only [scanElems]
    rw [scanE_noWE v l h.1, scanElems_noWE rest l h.2]
    rfl

end

theorem seqCat_ok {x y : Except String (List Row)} {res : List Row}
    (h : seqCat x y = .ok res) : ∃ a b, x = .ok a ∧ y = .ok b ∧ res = a ++ b := by
  cases x with
  | error e => exact Except.noConfusion h
  | ok a =>
    cases y with
    | error e => exact Except.noConfusion h
    | ok b => exact ⟨a, b, rfl, rfl, (Except.ok.inj h).symm⟩

theorem scanE_str (s : String) (l : Option String) : scanE (.str s) l = .ok [] := rfl

theorem scanE_num (n : Int) (l : Option String) : scanE (.num n) l = .ok [] := rfl

theorem scanE_bool (b : Bool) (l : Option String) : scanE (.bool b) l = .ok [] := rfl

theorem scanE_null (l : Option String) : scanE .null l = .ok [] := rfl

theorem scanE_arr (es : Elems) (l : Option String) : scanE (.arr es) l = scanElems es l := rfl

theorem scanFields_nil (l : Option String) : scanFields .nil l = .ok [] := rfl

theorem scanFields_cons (k : String) (v : Json) (rest : Fields) (l : Option String) :
    scanFields (.cons k v rest) l = seqCat (scanE v l) (scanFields rest l) := rfl

theorem scanElems_nil (l : Option String) : scanElems .nil l = .ok [] := rfl

theorem scanElems_cons (v : Json) (rest : Elems) (l : Option String) :
    scanElems (.cons v rest) l = seqCat (scanE v l) (scanElems rest l) := rfl

theorem processElems_nil (l : Option String) : processElems .nil l = .ok [] := rfl

theorem processElems_cons (e : Json) (rest : Elems) (l : Option String) :
    processElems (.cons e rest) l = seqCat (processElem e l) (processElems rest l) := rfl

mutual

theorem processElem_wf : ∀ (e : Json) (l : Option String) (res : List Row),
    processElem e l = .ok res →
    ∀ r ∈ res, r.location ≠ "" ∧ r.temp_type ≠ "" ∧ r.temperature.isNull = false
  | .obj efs, l, res, h => by
    simp only [processElem] at h
    split at h
    · rename_i s hname
      split at h
      · rename_i htemp
        split at h
        · rename_i lv tv
          split at h
          · rename_i hcond
            cases h
            intro r hr
            rw [List.mem_singleton] at hr
            subst hr
            simp only [Bool.and_eq_true, decide_eq_true_eq, Bool.not_eq_eq_eq_not,
              Bool.not_true] at hcond
            exact ⟨hcond.1, is_temp_name_ne_empty htemp,
              by simpa using hcond.2⟩
          · cases h
            intro r hr
            exact absurd hr (List.not_mem_nil r)
        · cases h
          intro r hr
          exact absurd hr (List.not_mem_nil r)
      · cases h
        intro r hr
        exact absurd hr (List.not_mem_nil r)
    · exact Except.noConfusion h
  | .arr es, _, res, h => by
    cases h
    intro r hr
    exact absurd hr (List.not_mem_nil r)
  | .str _, _, res, h => by
    cases h
    intro r hr
    exact absurd hr (List.not_mem_nil r)
  | .num _, _, res, h => by
    cases h
    intro r hr
    exact absurd hr (List.not_mem_nil r)
  | .bool _, _, res, h => by
    cases h
    intro r hr
    exact absurd hr (List.not_mem_nil r)
  | .null, _, res, h => by
    cases h
    intro r hr
    exact absurd hr (List.not_mem_nil r)

theorem processElems_wf : ∀ (es : Elems) (l : Option String) (res : List Row),
    processElems es l = .ok res →
    ∀ r ∈ res, r.location ≠ "" ∧ r.temp_type ≠ "" ∧ r.temperature.isNull = false
  | .nil, _, res, h => by
    cases h
    intro r hr
    exact absurd hr (List.not_mem_nil r)
  | .cons e rest, l, res, h => by
    obtain ⟨a, b, ha, hb, hres⟩ := seqCat_ok h
    subst hres
    intro r hr
    rcases List.mem_append.1 hr with hra | hrb
    · exact processElem_wf e l a ha r hra
    · exact processElems_wf rest l b hb r hrb

theorem scanE_wf : ∀ (j : Json) (l : Option String) (res : List Row),
    scanE j l = .ok res →
    ∀ r ∈ res, r.location ≠ "" ∧ r.temp_type ≠ "" ∧ r.temperature.isNull = false
  | .obj fs, l, res, h => by
    simp only [scanE] at h
    split at h
    · rename_i es hw
      obtain ⟨a, b, ha, hb, hres⟩ := seqCat_ok h
      subst hres
      intro r hr
      rcases List.mem_append.1 hr with hra | hrb
      · exact processElems_wf es _ a ha r hra
      · exact scanFields_wf fs _ b hb r hrb
    · exact scanFields_wf fs _ res h
  | .arr es, l, res, h => by
    simp only [scanE] at h
    exact scanElems_wf es l res h
  | .str _, _, res, h => by
    cases h
    intro r hr
    exact absurd hr (List.not_mem_nil r)
  | .num _, _, res, h => by
    cases h
    intro r hr
    exact absurd hr (List.not_mem_nil r)
  | .bool _, _, res, h => by
    cases h
    intro r hr
    exact absurd hr (List.not_mem_nil r)
  | .null, _, res, h => by
    cases h
    intro r hr
    exact absurd hr (List.not_mem_nil r)

theorem scanFields_wf : ∀ (fs : Fields) (l : Option String) (res : List Row),
    scanFields fs l = .ok res →
    ∀ r ∈ res, r.location ≠ "" ∧ r.temp_type ≠ "" ∧ r.temperature.isNull = false
  | .nil, _, res, h => by
    cases h
    intro r hr
    exact absurd hr (List.not_mem_nil r)
  | .cons _ v rest, l, res, h => by
    obtain ⟨a, b, ha, hb, hres⟩ := seqCat_ok h
    subst hres
    intro r hr
    rcases List.mem_append.1 hr with hra | hrb
    · exact scanE_wf v l a ha r hra
    · exact scanFields_wf rest l b hb r hrb

theorem scanElems_wf : ∀ (es : Elems) (l : Option String) (res : List Row),
    scanElems es l = .ok res →
    ∀ r ∈ res, r.location ≠ "" ∧ r.temp_type ≠ "" ∧ r.temperature.isNull = false
  | .nil, _, res, h => by
    cases h
    intro r hr
    exact absurd hr (List.not_mem_nil r)
  | .cons v rest, l, res, h => by
    obtain ⟨a, b, ha, hb, hres⟩ := seqCat_ok h
    subst hres
    intro r hr
    rcases List.mem_append.1 hr with hra | hrb
    · exact scanE_wf v l a ha r hra
    · exact scanElems_wf rest l b hb r hrb

end

theorem write_sqliteGo_eq : ∀ rows : List Row,
    write_sqliteGo rows = (rows.filterMap Spec.rowInsert, rows.filterMap Spec.rowWarn)
  | [] => rfl
  | r :: rest => by
    simp only [write_sqliteGo, write_sqliteGo_eq rest, List.filterMap_cons]
    unfold Spec.rowInsert Spec.rowWarn
    split
    · rename_i hg
      cases hp : pyFloat r.temperature with
      | some q => simp [hg, hp]
      | none => simp [hg, hp]
    · rename_i hg
      simp [if_neg hg]

theorem probeLoc_all_nonstr (fs : Fields)
    (h : ∀ k v, fs.lookup k = some v → v.isStr = false) :
    ∀ ks, probeLoc fs ks = none
  | [] => rfl
  | k :: ks => by
    rw [probeLoc]
    cases hx : fs.lookup k with
    | none => exact probeLoc_all_nonstr fs h ks
    | some v =>
      have hv := h k v hx
      cases v
      case str s => simp [Json.isStr] at hv
      all_goals exact probeLoc_all_nonstr fs h ks

theorem lookup_two {ka kb : String} {c1 c2 : Json} {k : String} {v : Json}
    (h : Fields.lookup (.cons ka c1 (.cons kb c2 .nil)) k = some v) :
    v = c1 ∨ v = c2 := by
  simp only [Fields.lookup] at h
  split at h
  · exact Or.inl (Option.some.inj h).symm
  · split at h
    · exact Or.inr (Option.some.inj h).symm
    · exact Option.noConfusion h

theorem resolve_two_nonstr (ka kb : String) (c1 c2 : Json) (ctx : Option String)
    (h1 : c1.isStr = false) (h2 : c2.isStr = false) :
    resolveLocName (.cons ka c1 (.cons kb c2 .nil)) ctx = ctx := by
  unfold resolveLocName
  rw [probeLoc_all_nonstr]
  intro k v hv
  rcases lookup_two hv with rfl | rfl
  · exact h1
  · exact h2

theorem scan_two_children (ctx : Option String) (ka kb : String) (c1 c2 : Json)
    (h1 : c1.isStr = false) (h2 : c2.isStr = false)
    (hka : ka ≠ "weatherElement") (hkb : kb ≠ "weatherElement") :
    scanE (.obj (.cons ka c1 (.cons kb c2 .nil))) ctx =
      seqCat (scanE c1 ctx) (seqCat (scanE c2 ctx) (.ok [])) := by
  have hlk : Fields.lookup (.cons ka c1 (.cons kb c2 .nil)) "weatherElement" = none := by
    simp [Fields.lookup, hka, hkb]
  simp only [scanE, hlk, resolve_two_nonstr ka kb c1 c2 ctx h1 h2]
  rfl

theorem is_temp_name_split (l : List Char) :
    anySuffix matchHere l =
      (anySuffix (startsWithCI "temp".data) l ||
        anySuffix (startsWithCI "temperature".data) l ||
        anySuffix (startsWithCI "溫度".data) l ||
        anySuffix tBoundHere l) := by
  induction l with
  | nil => rfl
  | cons c rest ih =>
    simp only [anySuffix, matchHere, ih]
    cases startsWithCI "temp".data (c :: rest) <;>
      cases startsWithCI "temperature".data (c :: rest) <;>
      cases tBoundHere (c :: rest) <;>
      cases startsWithCI "溫度".data (c :: rest) <;>
      cases anySuffix (startsWithCI "temp".data) rest <;>
      cases anySuffix (startsWithCI "temperature".data) rest <;>
      cases anySuffix (startsWithCI "溫度".data) rest <;>
      cases anySuffix tBoundHere rest <;> rfl

theorem App_probeLoc_eq (fs : Fields) : ∀ ks, App.probeLoc fs ks = probeLoc fs ks
  | [] => rfl
  | k :: ks => by
    rw [App.probeLoc, probeLoc]
    cases fs.lookup k with
    | none => exact App_probeLoc_eq fs ks
    | some v =>
      cases v
      case str s => rfl
      all_goals exact App_probeLoc_eq fs ks

theorem App_resolveLocName_eq (fs : Fields) (inh : Option String) :
    App.resolveLocName fs inh = resolveLocName fs inh := by
  unfold App.resolveLocName resolveLocName locKeys
  rw [App_probeLoc_eq]

theorem App_processElem_eq : ∀ (e : Json) (l : Option String),
    App.processElem e l = processElem e l
  | .obj _, _ => rfl
  | .arr _, _ => rfl
  | .str _, _ => rfl
  | .num _, _ => rfl
  | .bool _, _ => rfl
  | .null, _ => rfl

theorem App_processElems_eq : ∀ (es : Elems) (l : Option String),
    App.processElems es l = processElems es l
  | .nil, _ => rfl
  | .cons e rest, l => by
    rw [App.processElems, processElems, App_processElem_eq e l,
      App_processElems_eq rest l]

mutual

theorem App_scanE_eq : ∀ (j : Json) (inh : Option String), App.scanE j inh = scanE j inh
  | .obj fs, inh => by
    simp only [App.scanE, scanE, App_resolveLocName_eq fs inh]
    generalize fs.lookup "weatherElement" = q
    cases q with
    | none => exact App_scanFields_eq fs _
    | some v =>
      cases v
      case arr es =>
        show seqCat (App.processElems es (resolveLocName fs inh))
            (App.scanFields fs (resolveLocName fs inh)) =
          seqCat (processElems es (resolveLocName fs inh))
            (scanFields fs (resolveLocName fs inh))
        rw [App_processElems_eq, App_scanFields_eq fs _]
      all_goals exact App_scanFields_eq fs _
  | .arr es, inh => by
    simp only [App.scanE, scanE]
    exact App_scanElems_eq es inh
  | .str _, _ => rfl
  | .num _, _ => rfl
  | .bool _, _ => rfl
  | .null, _ => rfl

theorem App_scanFields_eq : ∀ (fs : Fields) (l : Option String),
    App.scanFields fs l = scanFields fs l
  | .nil, _ => rfl
  | .cons _ v rest, l => by
    rw [App.scanFields, scanFields, App_scanE_eq v l, App_scanFields_eq rest l]

theorem App_scanElems_eq : ∀ (es : Elems) (l : Option String),
    App.scanElems es l = scanElems es l
  | .nil, _ => rfl
  | .cons v rest, l => by
    rw [App.scanElems, scanElems, App_scanE_eq v l, App_scanElems_eq rest l]

end

/-! ### The claims -/

/-- Claim C1.  The claim says the scan completes on every structurally
valid JSON value with no internal error path.  The code violates this:
a `weatherElement` member whose `elementName` is a truthy non-string
(here the number 5) is handed to `re.search`, which raises `TypeError`,
and nothing in `find_locations` catches it.  This theorem evaluates the
scan at that failing input. -/
theorem scan_typeerror_on_nonstring_name :
    find_locationsE (jobj [("weatherElement", jarr [jobj [("elementName", .num 5)]])])
      = .error typeErrorMsg := rfl

/-- Claim C2, counterexample.  The claim says the value container is the
first NON-NULL of `elementValue` then `value`, so a non-null empty-string
`elementValue` should win and the final value should be `""`.  The code
uses Python `or` (first TRUTHY): on an element with `elementValue: ""`
and `value: "25"` it emits `"25"`, while the claim's first-non-null rule
(`Spec.origScalarOf`) yields `""`. -/
theorem value_first_nonnull_cex :
    find_locationsE (jobj [("locationName", .str "X"),
        ("weatherElement", jarr [jobj [("elementName", .str "temp"),
          ("elementValue", .str ""), ("value", .str "25")]])])
      = .ok [⟨"X", "temp", .str "25"⟩] ∧
    Spec.origScalarOf (Fields.ofList [("elementName", .str "temp"),
        ("elementValue", .str ""), ("value", .str "25")]) = .str "" ∧
    ("25" : String) ≠ "" :=
  ⟨rfl, rfl, by decide⟩

/-- Claim C2, amended.  For every `weatherElement` array element (an
object with fields `efs`) whose resolved name is a string the classifier
accepts: the container is the first TRUTHY of `elementValue` then
`value`; an object container yields its `value` key if truthy and
otherwise its raw `measure` lookup; a non-object, non-null container
yields its string representation; the element yields a record exactly
when that final scalar is non-null (`Spec.amendedScalarOf`). -/
theorem value_first_truthy_selection (efs : Fields) (L n : String) (hL : L ≠ "")
    (hname : elemNameJson efs = .str n) (htemp : is_temp_name n = true)
    (hnw : noWE (.obj efs) = true) :
    find_locationsE (jobj [("locationName", .str L),
        ("weatherElement", jarr [.obj efs])]) =
      .ok (match Spec.amendedScalarOf efs with
           | .null => []
           | tv => [⟨L, n, tv⟩]) := by
  have hobj : scanE (Json.obj efs) (some L) = .ok [] := scanE_noWE _ _ hnw
  have hres : resolveLocName (.cons "locationName" (.str L)
      (.cons "weatherElement" (.arr (.cons (.obj efs) .nil)) .nil)) none = some L := rfl
  have hlk : Fields.lookup (.cons "locationName" (.str L)
      (.cons "weatherElement" (.arr (.cons (.obj efs) .nil)) .nil)) "weatherElement"
      = some (.arr (.cons (.obj efs) .nil)) := rfl
  have hfields : scanFields (.cons "locationName" (.str L)
      (.cons "weatherElement" (.arr (.cons (.obj efs) .nil)) .nil)) (some L) = .ok [] := by
    rw [scanFields_cons, scanE_str, scanFields_cons, scanE_arr, scanElems_cons, hobj,
      scanElems_nil, scanFields_nil]
    rfl
  have hmatch : (match Spec.amendedScalarOf efs with
      | .null => ([] : List Row)
      | tv => [⟨L, n, tv⟩]) =
      (match tempValOf efs with
      | .null => ([] : List Row)
      | tv => [⟨L, n, tv⟩]) := rfl
  show scanE (Json.obj (.cons "locationName" (.str L)
      (.cons "weatherElement" (.arr (.cons (.obj efs) .nil)) .nil))) none =
    .ok (match Spec.amendedScalarOf efs with
         | .null => []
         | tv => [⟨L, n, tv⟩])
  simp only [scanE, hres, hlk, hfields, processElems_cons, processElems_nil, hmatch]
  have hdec : decide (L ≠ "") = true := decide_eq_true hL
  cases htv : tempValOf efs <;>
    simp [processElem, hname, htemp, htv, hdec, seqCat, Json.isNull]

/-- Claim C2, amended, witness: an element carrying only
`elementValue: {measure: "25.4"}` yields the record with value "25.4". -/
theorem value_first_truthy_selection_witness :
    find_locationsE (jobj [("locationName", .str "X"),
        ("weatherElement", jarr [jobj [("elementName", .str "temp"),
          ("elementValue", jobj [("measure", .str "25.4")])]])])
      = .ok [⟨"X", "temp", .str "25.4"⟩] :=
  value_first_truthy_selection
    (Fields.ofList [("elementName", .str "temp"),
      ("elementValue", jobj [("measure", .str "25.4")])])
    "X" "temp" (by decide) rfl rfl rfl

/-- Claim C3, counterexample.  The claim says a name is accepted exactly
when it contains `temp`/`temperature`/`溫度` case-insensitively or a
standalone bounded token `t`.  The regex alternative is `t`, which
requires only the RIGHT boundary: `"at"` is accepted by the code though
the `t` in it is not a standalone token (its left neighbour is a word
character), so the claim's rule (`Spec.isTempNameOrig`) rejects it. -/
theorem classifier_standalone_token_cex :
    is_temp_name "at" = true ∧ Spec.isTempNameOrig "at" = false :=
  ⟨rfl, rfl⟩

/-- Claim C3, amended.  The classifier returns true exactly when the name
contains, case-insensitively, `temp`, `temperature`, `溫度`, or a `t`
bounded on the right (followed by a non-word character or the end of the
name); the empty name returns false. -/
theorem classifier_right_bounded_t :
    (∀ s, is_temp_name s = Spec.isTempNameAmended s) ∧ is_temp_name "" = false := by
  refine ⟨fun s => ?_, rfl⟩
  rw [is_temp_name, is_temp_name_split]
  rfl

/-- Claim C4, counterexample.  The claim says every record's value is a
string holding the original textual representation.  When the value
container is an object, the code passes the inner `value`/`measure`
lookup through raw: an `elementValue: {value: 5}` yields a record whose
value is the number 5, not a string. -/
theorem record_value_non_string_cex :
    find_locationsE (jobj [("locationName", .str "X"),
        ("weatherElement", jarr [jobj [("elementName", .str "temp"),
          ("elementValue", jobj [("value", .num 5)])]])])
      = .ok [⟨"X", "temp", .num 5⟩] ∧ Json.isStr (.num 5) = false :=
  ⟨rfl, rfl⟩

/-- Claim C4, amended.  Every record the scan emits has a non-empty
location, a non-empty measurement type, and a non-null value (the value
is a string whenever the container was a non-object scalar, but an
object container's inner value is emitted raw and need not be a string). -/
theorem records_wellformed (j : Json) (res : List Row)
    (h : find_locationsE j = .ok res) :
    ∀ r ∈ res, r.location ≠ "" ∧ r.temp_type ≠ "" ∧ r.temperature.isNull = false :=
  scanE_wf j none res h

/-- Claim C4, amended, witness at a concrete document and its one record. -/
theorem records_wellformed_witness :
    ((⟨"臺北", "MinT", .str "18"⟩ : Row).location ≠ "" ∧
      (⟨"臺北", "MinT", .str "18"⟩ : Row).temp_type ≠ "" ∧
      (⟨"臺北", "MinT", .str "18"⟩ : Row).temperature.isNull = false) :=
  records_wellformed
    (jobj [("locationName", .str "臺北"),
      ("weatherElement", jarr [jobj [("elementName", .str "MinT"),
        ("elementValue", jobj [("value", .str "18")])]])])
    [⟨"臺北", "MinT", .str "18"⟩] rfl _ (List.mem_singleton_self _)

/-- Claim C5.  For every object node the declared location name is the
first of `locationName`, `locationname`, `location`, `siteName`,
`stationName`, `name` — in that order — present with a string value
(`Spec.firstLocString`); when none is, the inherited context is kept,
and the node scans exactly as it would under the resolved context (so
the children receive it too). -/
theorem location_key_precedence :
    ∀ (fs : Fields) (inh : Option String),
      resolveLocName fs inh =
        (match Spec.firstLocString fs with
         | some s => some s
         | none => inh) ∧
      scanE (.obj fs) inh = scanE (.obj fs) (resolveLocName fs inh) := by
  intro fs inh
  constructor
  · unfold resolveLocName Spec.firstLocString
    rw [probeLoc_eq]
  · simp only [scanE, resolveLocName_idem]

/-- Claim C6.  Sibling isolation: for a parent object with two non-string
children and no `weatherElement` of its own, the scan result is the
first child's records followed by the second child's records, and the
second child's records are computed from the parent's context alone —
replacing the first child (e.g. by one that declares its own
`locationName`) leaves the second child's records unchanged. -/
theorem sibling_isolation (ctx : Option String) (ka kb : String)
    (c1 c1' c2 : Json)
    (h1 : c1.isStr = false) (h1' : c1'.isStr = false) (h2 : c2.isStr = false)
    (hka : ka ≠ "weatherElement") (hkb : kb ≠ "weatherElement")
    (r1 r1' r2 : List Row)
    (e1 : scanE c1 ctx = .ok r1) (e1' : scanE c1' ctx = .ok r1')
    (e2 : scanE c2 ctx = .ok r2) :
    scanE (.obj (.cons ka c1 (.cons kb c2 .nil))) ctx = .ok (r1 ++ r2) ∧
    scanE (.obj (.cons ka c1' (.cons kb c2 .nil))) ctx = .ok (r1' ++ r2) := by
  have e := scan_two_children ctx ka kb c1 c2 h1 h2 hka hkb
  have e' := scan_two_children ctx ka kb c1' c2 h1' h2 hka hkb
  rw [e1, e2] at e
  rw [e1', e2] at e'
  constructor
  · rw [e]
    simp [seqCat]
  · rw [e']
    simp [seqCat]

/-- Claim C6, witness: the spec's own scenario.  Under parent context
"P", the first child declares `locationName: "宜蘭"` and contributes its
record, the second declares nothing and its record carries "P"; swapping
the first child for a bare number leaves the second record identical. -/
theorem sibling_isolation_witness :
    scanE (.obj (.cons "A"
        (jobj [("locationName", .str "宜蘭"),
          ("weatherElement", jarr [jobj [("elementName", .str "temp"),
            ("elementValue", .str "30")]])])
        (.cons "B"
          (jobj [("weatherElement", jarr [jobj [("elementName", .str "temp"),
            ("elementValue", .str "31")]])]) .nil))) (some "P")
      = .ok [⟨"宜蘭", "temp", .str "30"⟩, ⟨"P", "temp", .str "31"⟩] ∧
    scanE (.obj (.cons "A" (.num 0)
        (.cons "B"
          (jobj [("weatherElement", jarr [jobj [("elementName", .str "temp"),
            ("elementValue", .str "31")]])]) .nil))) (some "P")
      = .ok [⟨"P", "temp", .str "31"⟩] :=
  sibling_isolation (some "P") "A" "B"
    (jobj [("locationName", .str "宜蘭"),
      ("weatherElement", jarr [jobj [("elementName", .str "temp"),
        ("elementValue", .str "30")]])])
    (.num 0)
    (jobj [("weatherElement", jarr [jobj [("elementName", .str "temp"),
      ("elementValue", .str "31")]])])
    rfl rfl rfl (by decide) (by decide)
    [⟨"宜蘭", "temp", .str "30"⟩] [] [⟨"P", "temp", .str "31"⟩]
    rfl rfl rfl

/-- Claim C7.  On any JSON tree in which no object carries a
`weatherElement` key whose value is an array, the scan returns the empty
sequence — an `.ok []`, not an error. -/
theorem no_weatherElement_scan_empty (j : Json) (h : noWE j = true) :
    find_locationsE j = .ok [] :=
  scanE_noWE j none h

/-- Claim C7, witness at a concrete weatherElement-free document. -/
theorem no_weatherElement_scan_empty_witness :
    noWE (jobj [("locationName", .str "臺北"), ("n", .num 3)]) = true ∧
    find_locationsE (jobj [("locationName", .str "臺北"), ("n", .num 3)]) = .ok [] :=
  ⟨rfl, no_weatherElement_scan_empty _ rfl⟩

/-- Claim C8.  The classifier accepts "temp", "Temperature", "溫度" and
the bare token "t", and rejects "township" and the empty string. -/
theorem classifier_examples :
    is_temp_name "temp" = true ∧ is_temp_name "Temperature" = true ∧
    is_temp_name "溫度" = true ∧ is_temp_name "t" = true ∧
    is_temp_name "township" = false ∧ is_temp_name "" = false :=
  ⟨rfl, rfl, rfl, rfl, rfl, rfl⟩

/-- Claim C9.  The sink converts each record's value with `float` and
treats every record independently: the inserted rows are exactly the
per-record conversions that succeed (`Spec.rowInsert`) and the warnings
are exactly the per-record conversion failures (`Spec.rowWarn`), so one
bad record is skipped with a warning and never aborts the batch. -/
theorem write_sqlite_per_record (rows : List Row) :
    write_sqlite rows = (rows.filterMap Spec.rowInsert, rows.filterMap Spec.rowWarn) := by
  cases rows with
  | nil => rfl
  | cons r rest =>
    rw [write_sqlite]
    simp only [List.isEmpty_cons, Bool.false_eq_true, if_false]
    exact write_sqliteGo_eq (r :: rest)

/-- Claim C10.  The two copies of the extractor are extensionally equal:
`is_temp_name` and `find_locations` of app.py agree with those of
fetch_temperatures.py on every input. -/
theorem extractor_copies_agree :
    (∀ s, is_temp_name s = App.is_temp_name s) ∧
    (∀ j, find_locationsE j = App.find_locationsE j) :=
  ⟨fun _ => rfl, fun j => (App_scanE_eq j none).symm⟩

end Lect13
